import Mathlib

/-
Verification development for the crawler in src/crawl.py.

The file shallowly embeds the crawler's core functions in Lean:
URL parsing (mirroring Python's urllib.parse.urlparse for the pieces the
crawler reads), the nginx cache-key and cache-path derivation (including a
full MD5 implementation over Nat), the filesystem-manipulating cache renew
operation, the purge operation, the two link extractors, and the crawl loop
itself.  External collaborators (the aiohttp transport, the BeautifulSoup
parser, the regex engine of re.findall, and urljoin) are modelled as
oracle parameters, exactly at the interface boundary the code consumes them:
the embedded code's own control flow and data manipulation are translated
from the source.

Machine integers are modelled as Nat with explicit reduction mod 2^32 where
the source's hash arithmetic wraps.  Filesystem state is the list of paths of
existing regular files; os.rename and os.remove act on it (os.makedirs only
creates directories, so it does not change the file set).  Python exceptions
that escape a function are modelled with Except.
-/

set_option maxHeartbeats 1000000
set_option maxRecDepth 100000

namespace Crawl

/-! ### Basic string helpers (Python str primitives used by the code) -/

/-- Lowercase a character list, as Python str.lower does for ASCII. -/
def lowerL (l : List Char) : List Char := l.map Char.toLower

/-- Python str.startswith. -/
def strStartsWith (s p : String) : Bool :=
  decide (s.data.take p.data.length = p.data)

/-- Python str.endswith. -/
def strEndsWith (s p : String) : Bool :=
  decide (p.data.length ≤ s.data.length) &&
    decide (s.data.drop (s.data.length - p.data.length) = p.data)

/-- Split a character list at the first occurrence of a character:
returns (before, after) without the separator, or none if absent.
This models Python str.find / str.split with maxsplit 1. -/
def breakAt (ch : Char) : List Char → Option (List Char × List Char)
  | [] => none
  | c :: t =>
    if c == ch then some ([], t)
    else
      match breakAt ch t with
      | some (a, b) => some (c :: a, b)
      | none => none

/-- Index of the first occurrence of a character at or after a start index,
modelling Python str.find(ch, start). -/
def idxFrom (ch : Char) (l : List Char) (start : Nat) : Option Nat :=
  match breakAt ch (l.drop start) with
  | some (a, _) => some (start + a.length)
  | none => none

/-- Index of the last occurrence of a character, modelling Python str.rfind. -/
def lastIdxOf (ch : Char) (l : List Char) : Option Nat :=
  match breakAt ch l.reverse with
  | some (a, _) => some (l.length - 1 - a.length)
  | none => none

/-! ### Scheme downgrade

src/crawl.py lines 50 and 67: url = re.sub(r'^https', 'http', url).
The regex is anchored at the start and replaces the literal prefix. -/

/-- The https-to-http downgrade applied by fetch_page and purge_page. -/
def downgradeScheme (url : String) : String :=
  if url.data.take 5 = ['h', 't', 't', 'p', 's'] then
    String.mk (['h', 't', 't', 'p'] ++ url.data.drop 5)
  else url

/-! ### urllib.parse.urlparse, as consumed by the crawler

The crawler reads .scheme, .hostname, .path and .netloc of the parse result.
The embedding follows CPython's urlsplit/urlparse algorithm: scheme split at
the first colon when the prefix is a valid scheme, netloc after a leading
double slash up to the first of slash, question mark or hash, fragment split
at the first hash, query at the first question mark, and params split from
the final path segment at a semicolon. -/

/-- Characters allowed in a URL scheme after the leading letter. -/
def schemeCharOK (c : Char) : Bool :=
  c.isAlpha || c.isDigit || c == '+' || c == '-' || c == '.'

/-- Split off the scheme, lowercased; empty scheme when absent or invalid. -/
def splitSchemeL (u : List Char) : List Char × List Char :=
  match breakAt ':' u with
  | some (before, after) =>
    match before with
    | [] => ([], u)
    | c :: t =>
      if c.isAlpha && t.all schemeCharOK then (lowerL (c :: t), after) else ([], u)
  | none => ([], u)

/-- True at a character that terminates the netloc component. -/
def isNetlocEnd (c : Char) : Bool := c == '/' || c == '?' || c == '#'

/-- Split off the netloc after a leading double slash. -/
def splitNetlocL (u : List Char) : List Char × List Char :=
  match u with
  | '/' :: '/' :: t =>
    (t.takeWhile (fun c => !(isNetlocEnd c)), t.dropWhile (fun c => !(isNetlocEnd c)))
  | _ => ([], u)

/-- Split off the fragment at the first hash. -/
def splitFragmentL (u : List Char) : List Char × List Char :=
  match breakAt '#' u with
  | some (a, b) => (a, b)
  | none => (u, [])

/-- Split off the query at the first question mark. -/
def splitQueryL (u : List Char) : List Char × List Char :=
  match breakAt '?' u with
  | some (a, b) => (a, b)
  | none => (u, [])

/-- CPython's _splitparams: split params from the last path segment. -/
def splitParamsL (p : List Char) : List Char × List Char :=
  if p.contains '/' then
    match lastIdxOf '/' p with
    | some j =>
      match idxFrom ';' p j with
      | some i => (p.take i, p.drop (i + 1))
      | none => (p, [])
    | none => (p, [])
  else
    match idxFrom ';' p 0 with
    | some i => (p.take i, p.drop (i + 1))
    | none => (p, [])

/-- The result structure of urlparse, restricted to the fields the crawler
reads plus the remaining split components. -/
structure ParseResult where
  scheme : String
  netloc : String
  path : String
  params : String
  query : String
  fragment : String
deriving DecidableEq

/-- The embedding of urllib.parse.urlparse. -/
def urlparse (url : String) : ParseResult :=
  let sr := splitSchemeL url.data
  let nr := splitNetlocL sr.2
  let fr := splitFragmentL nr.2
  let qr := splitQueryL fr.1
  let pp := if qr.1.contains ';' then splitParamsL qr.1 else (qr.1, [])
  ⟨String.mk sr.1, String.mk nr.1, String.mk pp.1, String.mk pp.2,
    String.mk qr.2, String.mk fr.2⟩

/-- The part of the netloc after the last at sign (drops userinfo). -/
def hostinfoAfterAt (netloc : List Char) : List Char :=
  match lastIdxOf '@' netloc with
  | some i => netloc.drop (i + 1)
  | none => netloc

/-- CPython's hostname property on a split result: userinfo dropped, port
dropped, lowercased; None when empty. -/
def hostnameL (netloc : List Char) : Option (List Char) :=
  let hi := hostinfoAfterAt netloc
  let host :=
    match breakAt '[' hi with
    | some (_, after) => after.takeWhile (fun c => c != ']')
    | none => hi.takeWhile (fun c => c != ':')
  if host = [] then none else some (lowerL host)

/-- The hostname accessor used by generate_cache_key. -/
def ParseResult.hostname (p : ParseResult) : Option String :=
  (hostnameL p.netloc.data).map String.mk

/-! ### Cache key (src/crawl.py lines 30 to 34) -/

/-- generate_cache_key: the nginx cache-key pattern
scheme, then GET, then hostname, then path.  A missing hostname renders as
the string None, as a Python f-string does. -/
def generate_cache_key (url : String) : String :=
  let p := urlparse url
  p.scheme ++ "GET" ++
    (match p.hostname with
     | some h => h
     | none => "None") ++ p.path

/-! ### MD5 (hashlib.md5(...).hexdigest() in get_cache_file_path)

A direct implementation of RFC 1321 over Nat, with 32-bit words reduced
mod 2^32 at every addition and rotation. -/

/-- UTF-8 encoding of one code point, as Python str.encode() produces. -/
def encodeChar (c : Char) : List Nat :=
  let n := c.toNat
  if n < 128 then [n]
  else if n < 2048 then [192 + n / 64, 128 + n % 64]
  else if n < 65536 then [224 + n / 4096, 128 + n / 64 % 64, 128 + n % 64]
  else [240 + n / 262144, 128 + n / 4096 % 64, 128 + n / 64 % 64, 128 + n % 64]

/-- UTF-8 bytes of a string, as Python's cache_key.encode(). -/
def utf8Bytes (s : String) : List Nat := s.data.flatMap encodeChar

/-- The 64 MD5 sine-derived constants of RFC 1321. -/
def md5K : List Nat :=
  [0xd76aa478, 0xe8c7b756, 0x242070db, 0xc1bdceee,
   0xf57c0faf, 0x4787c62a, 0xa8304613, 0xfd469501,
   0x698098d8, 0x8b44f7af, 0xffff5bb1, 0x895cd7be,
   0x6b901122, 0xfd987193, 0xa679438e, 0x49b40821,
   0xf61e2562, 0xc040b340, 0x265e5a51, 0xe9b6c7aa,
   0xd62f105d, 0x02441453, 0xd8a1e681, 0xe7d3fbc8,
   0x21e1cde6, 0xc33707d6, 0xf4d50d87, 0x455a14ed,
   0xa9e3e905, 0xfcefa3f8, 0x676f02d9, 0x8d2a4c8a,
   0xfffa3942, 0x8771f681, 0x6d9d6122, 0xfde5380c,
   0xa4beea44, 0x4bdecfa9, 0xf6bb4b60, 0xbebfbc70,
   0x289b7ec6, 0xeaa127fa, 0xd4ef3085, 0x04881d05,
   0xd9d4d039, 0xe6db99e5, 0x1fa27cf8, 0xc4ac5665,
   0xf4292244, 0x432aff97, 0xab9423a7, 0xfc93a039,
   0x655b59c3, 0x8f0ccc92, 0xffeff47d, 0x85845dd1,
   0x6fa87e4f, 0xfe2ce6e0, 0xa3014314, 0x4e0811a1,
   0xf7537e82, 0xbd3af235, 0x2ad7d2bb, 0xeb86d391]

/-- The 64 MD5 per-round left-rotation amounts. -/
def md5S : List Nat :=
  [7, 12, 17, 22, 7, 12, 17, 22, 7, 12, 17, 22, 7, 12, 17, 22,
   5, 9, 14, 20, 5, 9, 14, 20, 5, 9, 14, 20, 5, 9, 14, 20,
   4, 11, 16, 23, 4, 11, 16, 23, 4, 11, 16, 23, 4, 11, 16, 23,
   6, 10, 15, 21, 6, 10, 15, 21, 6, 10, 15, 21, 6, 10, 15, 21]

/-- Bitwise complement within 32 bits. -/
def not32 (x : Nat) : Nat := 4294967295 - x

/-- Left rotation of a 32-bit word. -/
def rotl32 (s x : Nat) : Nat :=
  ((x <<< s) % 4294967296) + (x >>> (32 - s))

/-- Little-endian byte rendering of a Nat, fixed width. -/
def leBytes (width n : Nat) : List Nat :=
  (List.range width).map (fun i => n / 256 ^ i % 256)

/-- RFC 1321 padding: a 0x80 byte, zeros to 56 mod 64, then the bit length
as eight little-endian bytes. -/
def md5pad (msg : List Nat) : List Nat :=
  let zeros := (120 - (msg.length + 1) % 64) % 64
  msg ++ [128] ++ List.replicate zeros 0 ++ leBytes 8 (msg.length * 8 % 2 ^ 64)

/-- The 16 little-endian message words of one 64-byte block. -/
def blockWords (block : List Nat) : List Nat :=
  (List.range 16).map (fun i =>
    block.getD (4 * i) 0 + 256 * block.getD (4 * i + 1) 0 +
      65536 * block.getD (4 * i + 2) 0 + 16777216 * block.getD (4 * i + 3) 0)

/-- One of the 64 MD5 mixing steps. -/
def md5Step (M : List Nat) (st : Nat × Nat × Nat × Nat) (i : Nat) :
    Nat × Nat × Nat × Nat :=
  let a := st.1
  let b := st.2.1
  let c := st.2.2.1
  let d := st.2.2.2
  let fg :=
    if i < 16 then (((b &&& c) ||| (not32 b &&& d)), i)
    else if i < 32 then (((d &&& b) ||| (not32 d &&& c)), (5 * i + 1) % 16)
    else if i < 48 then ((b ^^^ c ^^^ d), (3 * i + 5) % 16)
    else ((c ^^^ (b ||| not32 d)), (7 * i) % 16)
  let tmp := (a + fg.1 + md5K.getD i 0 + M.getD fg.2 0) % 4294967296
  (d, (b + rotl32 (md5S.getD i 0) tmp) % 4294967296, b, c)

/-- Process one 64-byte block into the running state. -/
def md5Block (st : Nat × Nat × Nat × Nat) (block : List Nat) :
    Nat × Nat × Nat × Nat :=
  let M := blockWords block
  let r := (List.range 64).foldl (md5Step M) st
  ((st.1 + r.1) % 4294967296, (st.2.1 + r.2.1) % 4294967296,
   (st.2.2.1 + r.2.2.1) % 4294967296, (st.2.2.2 + r.2.2.2) % 4294967296)

/-- Split a byte list into 64-byte chunks, driven by a fuel argument that
the caller sets to the list length (more than enough). -/
def chunks64Aux : Nat → List Nat → List (List Nat)
  | 0, _ => []
  | _ + 1, [] => []
  | n + 1, l => l.take 64 :: chunks64Aux n (l.drop 64)

/-- 64-byte chunks of a byte list. -/
def chunks64 (l : List Nat) : List (List Nat) := chunks64Aux l.length l

/-- MD5 digest bytes of a byte message. -/
def md5Bytes (msg : List Nat) : List Nat :=
  let st := (chunks64 (md5pad msg)).foldl md5Block
    (0x67452301, 0xefcdab89, 0x98badcfe, 0x10325476)
  leBytes 4 st.1 ++ leBytes 4 st.2.1 ++ leBytes 4 st.2.2.1 ++ leBytes 4 st.2.2.2

/-- Lowercase hex digit. -/
def hexChar (n : Nat) : Char :=
  "0123456789abcdef".data.getD n '0'

/-- Two lowercase hex digits of a byte. -/
def byteToHex (b : Nat) : List Char := [hexChar (b / 16), hexChar (b % 16)]

/-- hashlib.md5(s.encode()).hexdigest(). -/
def md5hex (s : String) : String :=
  String.mk ((md5Bytes (utf8Bytes s)).flatMap byteToHex)

/-! ### Cache paths (src/crawl.py lines 25 to 45) -/

/-- The nginx cache root (src/crawl.py line 26). -/
def cache_dir : String := "/root/nginx/cache"

/-- The temporary holding-area root (src/crawl.py line 27). -/
def temp_cache_dir : String := "/tmp/cache"

/-- The configured shard scheme (src/crawl.py line 28). -/
def cache_path_levels : String := "1:2"

/-- posixpath.join for two components: an absolute second component
discards the first; otherwise a separator is inserted unless the first
component is empty or already ends in one. -/
def ospath_join (a b : String) : String :=
  if b.data.head? = some '/' then b
  else if a.data = [] ∨ a.data.getLast? = some '/' then String.mk (a.data ++ b.data)
  else String.mk (a.data ++ '/' :: b.data)

/-- get_cache_file_path: the sharded nginx cache path of a cache key, from
the trailing hex digits of the key's MD5.  The slices mirror Python's
md5[-1], md5[-3:-1] and md5[-6:-3]. -/
def get_cache_file_path (cache_key : String) : String :=
  let m := md5hex cache_key
  let d := m.data
  if cache_path_levels = "1:2" then
    ospath_join (ospath_join (ospath_join cache_dir
      (String.mk ((d.drop (d.length - 1)).take 1)))
      (String.mk ((d.drop (d.length - 3)).take 2))) m
  else if cache_path_levels = "1:2:3" then
    ospath_join (ospath_join (ospath_join (ospath_join cache_dir
      (String.mk ((d.drop (d.length - 1)).take 1)))
      (String.mk ((d.drop (d.length - 3)).take 2)))
      (String.mk ((d.drop (d.length - 6)).take 3))) m
  else ospath_join cache_dir m

/-! ### Filesystem model

The filesystem state is the list of existing regular-file paths.
os.rename moves a file; renaming a path onto itself is a POSIX no-op.
os.remove deletes; os.makedirs only creates directories and therefore does
not touch the file set. -/

/-- os.rename src dst on the set of existing files. -/
def fsRename (src dst : String) (fs : List String) : List String :=
  if src = dst then fs else dst :: fs.erase src

/-- os.remove on the set of existing files. -/
def fsRemove (p : String) (fs : List String) : List String := fs.erase p

/-! ### Transport outcomes and Python exceptions

aiohttp and asyncio are external collaborators; a request's behavior is an
oracle from the (already downgraded) URL to an outcome.  ok stands for a
2xx or 3xx response (raise_for_status raises ClientResponseError for
4xx and 5xx, carrying the status); transportError stands for a
connection-level ClientError, which carries no status attribute;
timeout stands for asyncio.TimeoutError. -/

inductive FetchOutcome where
  | ok (contentType : Option String) (body : String)
  | httpError (status : Nat)
  | transportError
  | timeout
deriving DecidableEq

inductive PurgeOutcome where
  | ok (text : String)
  | httpError (status : Nat)
  | transportError
  | timeout
deriving DecidableEq

/-- Python exceptions that can escape the embedded functions. -/
inductive PyExc where
  | attributeError
  | timeoutError
deriving DecidableEq

/-! ### fetch_page (src/crawl.py lines 47 to 62)

Downgrades the scheme, issues the GET, and collapses every error to the
pair (None, None); on success it returns the Content-Type header (possibly
absent) and the drained body. -/

/-- fetch_page: some (contentType, body) on success, none on any failure. -/
def fetch_page (net : String → FetchOutcome) (url : String) :
    Option (Option String × String) :=
  match net (downgradeScheme url) with
  | .ok ct body => some (ct, body)
  | .httpError _ => none
  | .transportError => none
  | .timeout => none

/-! ### purge_page (src/crawl.py lines 64 to 79)

Only aiohttp.ClientError is caught, and the handler reads e.status, an
attribute only ClientResponseError has.  So a 404 returns None (already
purged), any other HTTP status is logged and returns None, but a
connection-level ClientError raises AttributeError inside the handler and
an asyncio.TimeoutError is not caught at all; both escape the function. -/

/-- purge_page: the returned text on success, none on an HTTP error
(404 logged as already purged, others logged as failures), and an escaping
exception for status-less transport errors and timeouts. -/
def purge_page (pnet : String → PurgeOutcome) (url : String) :
    Except PyExc (Option String) :=
  match pnet (downgradeScheme url) with
  | .ok t => .ok (some t)
  | .httpError s =>
    -- 404 logs already purged; other statuses log a failure; both return None
    if s = 404 then .ok none else .ok none
  | .transportError => .error .attributeError
  | .timeout => .error .timeoutError

/-! ### Events

Observable actions of one crawl run, for stating ordering properties. -/

inductive Ev where
  | fetch (url : String)
  | purge (url : String)
  | visit (url : String)
deriving DecidableEq

/-! ### renew_page_cache (src/crawl.py lines 81 to 110)

Computes the cache path of the URL (no scheme rewrite happens before the
key derivation), and when a cache entry exists: renames it to
os.path.join(temp_cache_dir, cache_file_path), fetches the URL, renames
back on failure, removes on success.  Returns the success flag, the new
filesystem, and the fetch events it performed. -/

/-- renew_page_cache over the filesystem model. -/
def renew_page_cache (net : String → FetchOutcome) (fs : List String)
    (url : String) : Bool × List String × List Ev :=
  let cache_key := generate_cache_key url
  let cache_file_path := get_cache_file_path cache_key
  if fs.contains cache_file_path then
    let temp_cache_file_path := ospath_join temp_cache_dir cache_file_path
    -- os.makedirs(os.path.dirname(temp_cache_file_path), exist_ok=True)
    -- creates directories only: no change to the file set
    let fs1 := fsRename cache_file_path temp_cache_file_path fs
    match fetch_page net url with
    | none =>
      -- fetch failed: move the file back and report failure
      (false, fsRename temp_cache_file_path cache_file_path fs1, [Ev.fetch url])
    | some _ =>
      -- fetch succeeded: drop the holding-area copy
      (true, fsRemove temp_cache_file_path fs1, [Ev.fetch url])
  else (false, fs, [])

/-! ### Link extraction (src/crawl.py lines 113 to 175)

BeautifulSoup, re.findall and urljoin are external collaborators, passed as
oracles: parse yields every href/src attribute value found on the six tag
kinds the code queries, findall yields the regex matches of the fixed link
pattern, ujoin is urllib.parse.urljoin.  The code's own logic, the
resolve-then-filter step, is embedded directly; the result set is modelled
as the list of links in encounter order (the caller deduplicates by set
update). -/

/-- extract_links_from_html: resolve every candidate against the base URL
and keep those whose netloc is an allowed domain. -/
def extract_links_from_html (parse : String → List String)
    (ujoin : String → String → String) (allowed : List String)
    (html base_url : String) : List String :=
  ((parse html).map (fun href => ujoin base_url href)).filter
    (fun full => allowed.contains (urlparse full).netloc)

/-- extract_links_from_text: resolve every regex match against the base URL
and keep those whose netloc equals the base URL's netloc. -/
def extract_links_from_text (findall : String → List String)
    (ujoin : String → String → String) (text base_url : String) : List String :=
  ((findall text).map (fun m => ujoin base_url m)).filter
    (fun full => (urlparse full).netloc == (urlparse base_url).netloc)

/-! ### The crawl loop (src/crawl.py lines 177 to 202) -/

/-- Run configuration: the purge flag (pre-fetch renew) and the clean-cache
flag (post-fetch purge). -/
structure Config where
  purge : Bool
  clean_cache : Bool
deriving DecidableEq

/-- The world the crawl runs against: a finite transport behavior (URLs
without an entry fail with a connection error), the purge transport, and
the extraction oracles. -/
structure World where
  net : List (String × FetchOutcome)
  pnet : String → PurgeOutcome
  parse : String → List String
  findall : String → List String
  ujoin : String → String → String

/-- The transport function induced by the finite behavior table. -/
def netFun (w : World) : String → FetchOutcome :=
  fun u =>
    match w.net.lookup u with
    | some o => o
    | none => .transportError

/-- Mutable state of the crawl loop: the frontier, the visited set and the
filesystem.  Python's set.pop is modelled as taking the head of the list;
both sets are kept duplicate-free by construction. -/
structure CrawlState where
  queue : List String
  visited : List String
  fs : List String
deriving DecidableEq

/-- queue.update(links): insert each link not already present. -/
def queueUpdate (q links : List String) : List String :=
  links.foldl (fun acc l => if acc.contains l then acc else acc ++ [l]) q

/-- The content-type test on line 196:
content_type in ['text/html', 'text/css', 'application/javascript'] or
content_type.startswith('text/').  A missing header is Python's None: the
membership test is False and None.startswith raises AttributeError. -/
def contentTypeMatches : Option String → Except PyExc Bool
  | some ct =>
    .ok ((ct == "text/html" || ct == "text/css" || ct == "application/javascript")
      || strStartsWith ct "text/")
  | none => .error .attributeError

/-- The extractor dispatch on lines 198 to 201: text mode for URLs ending
in .js or .css, markup mode otherwise. -/
def pageLinks (w : World) (allowed : List String) (url body : String) :
    List String :=
  if strEndsWith url ".js" || strEndsWith url ".css" then
    extract_links_from_text w.findall w.ujoin body url
  else
    extract_links_from_html w.parse w.ujoin allowed body url

/-- One loop iteration on a dequeued, not-yet-visited URL: optional renew,
fetch, optional purge (which can raise), visited update on success, and
content-type dispatch (which can raise on a missing header).  Returns the
next state or an escaping exception with the state at that point, plus the
events of the iteration in order. -/
def crawlIter (cfg : Config) (w : World) (allowed : List String)
    (url : String) (rest vis fs : List String) :
    (CrawlState ⊕ (PyExc × CrawlState)) × List Ev :=
  let rn := if cfg.purge then renew_page_cache (netFun w) fs url else (false, fs, [])
  let evs0 := rn.2.2 ++ [Ev.fetch url] ++
    (if cfg.clean_cache then [Ev.purge url] else [])
  match (if cfg.clean_cache then purge_page w.pnet url else .ok none) with
  | .error e => (.inr (e, ⟨rest, vis, rn.2.1⟩), evs0)
  | .ok _ =>
    match fetch_page (netFun w) url with
    | none => (.inl ⟨rest, vis, rn.2.1⟩, evs0)
    | some (ct, body) =>
      match contentTypeMatches ct with
      | .error e => (.inr (e, ⟨rest, url :: vis, rn.2.1⟩), evs0 ++ [Ev.visit url])
      | .ok true =>
        (.inl ⟨queueUpdate rest (pageLinks w allowed url body), url :: vis, rn.2.1⟩,
          evs0 ++ [Ev.visit url])
      | .ok false => (.inl ⟨rest, url :: vis, rn.2.1⟩, evs0 ++ [Ev.visit url])

/-- The links one iteration on a URL would enqueue, recomputed from the
world alone (used to bound the reachable universe). -/
def iterLinks (w : World) (allowed : List String) (url : String) : List String :=
  match fetch_page (netFun w) url with
  | none => []
  | some (ct, body) =>
    match contentTypeMatches ct with
    | .ok true => pageLinks w allowed url body
    | .ok false => []
    | .error _ => []

/-- Result of a finished run: the escaped exception if any, the final
state, and the full event trace. -/
structure RunResult where
  exc : Option PyExc
  state : CrawlState
  trace : List Ev
deriving DecidableEq

/-- The crawl loop with fuel: pop the head of the frontier, skip it when
already visited, otherwise run one iteration; stop with an empty frontier,
on an escaped exception, or when out of fuel (none). -/
def crawlLoop (cfg : Config) (w : World) (allowed : List String) :
    Nat → CrawlState → List Ev → Option RunResult
  | 0, _, _ => none
  | n + 1, st, tr =>
    match st.queue with
    | [] => some ⟨none, st, tr⟩
    | url :: rest =>
      if st.visited.contains url then
        crawlLoop cfg w allowed n ⟨rest, st.visited, st.fs⟩ tr
      else
        match crawlIter cfg w allowed url rest st.visited st.fs with
        | (.inl st', evs) => crawlLoop cfg w allowed n st' (tr ++ evs)
        | (.inr (e, st'), evs) => some ⟨some e, st', tr ++ evs⟩

/-! ### Path lemmas -/

/-- Sanity check of the MD5 embedding against an RFC 1321 test vector. -/
theorem md5hex_abc : md5hex "abc" = "900150983cd24fb0d6963f7d28e17f72" := by decide

/-- posixpath.join returns the second component unchanged when it is
absolute. -/
theorem ospath_join_absolute (a b : String) (h : b.data.head? = some '/') :
    ospath_join a b = b := by
  unfold ospath_join
  rw [if_pos h]

/-- Joining onto an absolute first component yields an absolute path. -/
theorem ospath_join_head (a b : String) (h : a.data.head? = some '/') :
    (ospath_join a b).data.head? = some '/' := by
  unfold ospath_join
  split
  · assumption
  · cases ha : a.data with
    | nil => rw [ha] at h; cases h
    | cons c t =>
      rw [ha] at h
      simp only [List.head?] at h
      cases h
      split <;> simp [ha]

/-- The configured nginx cache root is an absolute path. -/
theorem cache_dir_head : cache_dir.data.head? = some '/' := rfl

/-- Every computed cache file path is absolute. -/
theorem get_cache_file_path_head (k : String) :
    (get_cache_file_path k).data.head? = some '/' := by
  unfold get_cache_file_path
  simp only []
  rw [if_pos (show cache_path_levels = "1:2" from rfl)]
  exact ospath_join_head _ _ (ospath_join_head _ _ (ospath_join_head _ _ cache_dir_head))

/-- The holding-area path renew computes collapses onto the original cache
path: os.path.join discards the temp root because the cache path is
absolute. -/
theorem temp_path_eq_cache_path (k : String) :
    ospath_join temp_cache_dir (get_cache_file_path k) = get_cache_file_path k :=
  ospath_join_absolute _ _ (get_cache_file_path_head k)

/-! ### Claims C1 to C4, C7, C10 -/

/-- Claim C1 (confirmed).  Renew rollback: for every URL whose cache entry
exists at its computed cache path, if the fetch performed inside Renew
fails, then renew_page_cache returns false and leaves the file set exactly
as it was, so the cache entry still exists at its original cache path and
no file for it remains in the temporary holding area. -/
theorem c1_renew_rollback (net : String → FetchOutcome) (fs : List String)
    (url : String)
    (hcache : fs.contains (get_cache_file_path (generate_cache_key url)) = true)
    (hfail : fetch_page net url = none) :
    renew_page_cache net fs url = (false, fs, [Ev.fetch url]) ∧
    get_cache_file_path (generate_cache_key url) ∈ fs := by
  refine ⟨?_, List.mem_of_elem_eq_true hcache⟩
  unfold renew_page_cache
  simp only [hcache, if_true, temp_path_eq_cache_path, hfail]
  simp [fsRename]

/-- Witness for C1: a concrete filesystem holding exactly the cache entry
of a concrete URL, and a transport that always fails. -/
theorem c1_renew_rollback_witness :
    ([get_cache_file_path (generate_cache_key "http://example.com/")].contains
        (get_cache_file_path (generate_cache_key "http://example.com/")) = true)
  ∧ fetch_page (fun _ => FetchOutcome.transportError) "http://example.com/" = none
  ∧ renew_page_cache (fun _ => FetchOutcome.transportError)
      [get_cache_file_path (generate_cache_key "http://example.com/")]
      "http://example.com/" =
      (false, [get_cache_file_path (generate_cache_key "http://example.com/")],
        [Ev.fetch "http://example.com/"]) := by
  have h1 : [get_cache_file_path (generate_cache_key "http://example.com/")].contains
      (get_cache_file_path (generate_cache_key "http://example.com/")) = true := by simp
  have h2 : fetch_page (fun _ => FetchOutcome.transportError) "http://example.com/" = none := rfl
  exact ⟨h1, h2, (c1_renew_rollback _ _ _ h1 h2).1⟩

/-- Claim C2 (code bug).  The claim says the holding-area path has the same
relative path as the original entry but is rooted under the temp cache
root, hence differs from the original cache path.  In the code the holding
path is os.path.join(temp_cache_dir, cache_file_path) with an absolute
second argument, so os.path.join discards the temp root and the computed
holding path IS the original cache path: the entry is renamed onto itself
and never relocated.  Shown for every cache key and for the concrete URL
http://example.com/. -/
theorem c2_holding_path_collapses :
    (∀ k, ospath_join temp_cache_dir (get_cache_file_path k) = get_cache_file_path k)
  ∧ ospath_join temp_cache_dir
      (get_cache_file_path (generate_cache_key "http://example.com/"))
      = get_cache_file_path (generate_cache_key "http://example.com/") :=
  ⟨temp_path_eq_cache_path, temp_path_eq_cache_path _⟩

/-- Claim C3 (code bug).  renew_page_cache computes the cache key from the
raw URL; the https-to-http rewrite happens only inside fetch_page and
purge_page.  So the key derived during Renew for an https URL keeps scheme
https and differs from the key of the same URL given with scheme http,
contradicting the claimed invariant. -/
theorem c3_cache_key_not_downgraded :
    generate_cache_key "https://example.com/" = "httpsGETexample.com/"
  ∧ generate_cache_key (downgradeScheme "https://example.com/") = "httpGETexample.com/"
  ∧ generate_cache_key "https://example.com/" ≠ generate_cache_key "http://example.com/"
  ∧ get_cache_file_path (generate_cache_key "https://example.com/")
      ≠ get_cache_file_path (generate_cache_key "http://example.com/") :=
  ⟨by decide, by decide, by decide, by decide⟩

/-- Claim C4 (code bug).  purge_page treats a 404 as success (returns
None), and absorbs other HTTP statuses; but a status-less transport error
makes the handler's e.status access raise AttributeError, and a timeout is
not caught at all, so both escape instead of being absorbed. -/
theorem c4_purge_error_paths :
    purge_page (fun _ => PurgeOutcome.httpError 404) "http://example.com/" = .ok none
  ∧ purge_page (fun _ => PurgeOutcome.httpError 500) "http://example.com/" = .ok none
  ∧ purge_page (fun _ => PurgeOutcome.transportError) "http://example.com/"
      = .error .attributeError
  ∧ purge_page (fun _ => PurgeOutcome.timeout) "http://example.com/"
      = .error .timeoutError :=
  ⟨rfl, rfl, rfl, rfl⟩

/-- Claim C7 (confirmed).  Scope filtering: whatever the parser, regex and
urljoin oracles produce, markup-mode extraction only returns URLs whose
netloc is an allowed domain, and text-mode extraction only returns URLs
whose netloc equals the base URL's netloc. -/
theorem c7_scope_filtering :
    (∀ (parse : String → List String) (ujoin : String → String → String)
        (allowed : List String) (html base_url u : String),
        u ∈ extract_links_from_html parse ujoin allowed html base_url →
        (urlparse u).netloc ∈ allowed)
  ∧ (∀ (findall : String → List String) (ujoin : String → String → String)
        (text base_url u : String),
        u ∈ extract_links_from_text findall ujoin text base_url →
        (urlparse u).netloc = (urlparse base_url).netloc) := by
  constructor
  · intro parse ujoin allowed html base u hu
    unfold extract_links_from_html at hu
    exact List.mem_of_elem_eq_true (List.mem_filter.mp hu).2
  · intro findall ujoin text base u hu
    unfold extract_links_from_text at hu
    exact eq_of_beq (List.mem_filter.mp hu).2

/-- Witness for C7: concrete oracles, one in-scope markup link and one
same-host text link. -/
theorem c7_scope_filtering_witness :
    ("http://hosta/p" ∈ extract_links_from_html (fun _ => ["http://hosta/p"])
        (fun _ r => r) ["hosta"] "" "http://hosta/"
      ∧ (urlparse "http://hosta/p").netloc ∈ ["hosta"])
  ∧ ("http://hostb/q" ∈ extract_links_from_text (fun _ => ["http://hostb/q"])
        (fun _ r => r) "" "http://hostb/"
      ∧ (urlparse "http://hostb/q").netloc = (urlparse "http://hostb/").netloc) := by
  have h1 : "http://hosta/p" ∈ extract_links_from_html (fun _ => ["http://hosta/p"])
      (fun _ r => r) ["hosta"] "" "http://hosta/" := by decide
  have h2 : "http://hostb/q" ∈ extract_links_from_text (fun _ => ["http://hostb/q"])
      (fun _ r => r) "" "http://hostb/" := by decide
  exact ⟨⟨h1, c7_scope_filtering.1 _ _ _ _ _ _ h1⟩,
    ⟨h2, c7_scope_filtering.2 _ _ _ _ _ h2⟩⟩

/-- Claim C10 (confirmed).  The cache key is built from scheme, method,
host and path only: two URLs differing only in the query string (and two
differing only in the fragment) produce the same key and hence the same
cache path. -/
theorem c10_cache_key_ignores_query_fragment :
    ("http://example.com/page?a=1" : String) ≠ "http://example.com/page?a=2"
  ∧ generate_cache_key "http://example.com/page?a=1"
      = generate_cache_key "http://example.com/page?a=2"
  ∧ get_cache_file_path (generate_cache_key "http://example.com/page?a=1")
      = get_cache_file_path (generate_cache_key "http://example.com/page?a=2")
  ∧ ("http://example.com/page#f1" : String) ≠ "http://example.com/page#f2"
  ∧ generate_cache_key "http://example.com/page#f1"
      = generate_cache_key "http://example.com/page#f2" := by
  refine ⟨by decide, by decide, ?_, by decide, by decide⟩
  exact congrArg get_cache_file_path (by decide)

/-! ### Loop step lemmas -/

/-- Bool contains false gives non-membership. -/
theorem not_mem_of_contains_false {l : List String} {a : String}
    (h : l.contains a = false) : a ∉ l := by
  intro hm
  have he := List.elem_eq_true_of_mem hm
  unfold List.contains at h
  rw [h] at he
  cases he

/-- renew_page_cache emits either no event or exactly the fetch of its URL. -/
theorem renew_evs (net : String → FetchOutcome) (fs : List String) (url : String) :
    (renew_page_cache net fs url).2.2 = [] ∨
    (renew_page_cache net fs url).2.2 = [Ev.fetch url] := by
  unfold renew_page_cache
  by_cases hc : fs.contains (get_cache_file_path (generate_cache_key url)) = true
  · simp only [hc, if_true]
    rcases hf : fetch_page net url with _ | v <;> simp [hf]
  · rw [Bool.not_eq_true] at hc
    simp [not_mem_of_contains_false hc]

/-- One fuelled step on an empty frontier: the run finishes. -/
theorem crawlLoop_nil (cfg : Config) (w : World) (allowed : List String)
    (n : Nat) (vis fs : List String) (tr : List Ev) :
    crawlLoop cfg w allowed (n + 1) ⟨[], vis, fs⟩ tr = some ⟨none, ⟨[], vis, fs⟩, tr⟩ := by
  rw [crawlLoop]

/-- One fuelled step on a visited head: skipped with no events. -/
theorem crawlLoop_cons_visited (cfg : Config) (w : World) (allowed : List String)
    (n : Nat) (url : String) (rest vis fs : List String) (tr : List Ev)
    (hvis : vis.contains url = true) :
    crawlLoop cfg w allowed (n + 1) ⟨url :: rest, vis, fs⟩ tr
      = crawlLoop cfg w allowed n ⟨rest, vis, fs⟩ tr := by
  rw [crawlLoop]
  show (if vis.contains url = true then crawlLoop cfg w allowed n ⟨rest, vis, fs⟩ tr
    else match crawlIter cfg w allowed url rest vis fs with
      | (.inl st', evs) => crawlLoop cfg w allowed n st' (tr ++ evs)
      | (.inr (e, st'), evs) => some ⟨some e, st', tr ++ evs⟩) = _
  rw [if_pos hvis]

/-- One fuelled step on an unvisited head: one full iteration runs. -/
theorem crawlLoop_cons_not_visited (cfg : Config) (w : World) (allowed : List String)
    (n : Nat) (url : String) (rest vis fs : List String) (tr : List Ev)
    (hvis : vis.contains url = false) :
    crawlLoop cfg w allowed (n + 1) ⟨url :: rest, vis, fs⟩ tr
      = match crawlIter cfg w allowed url rest vis fs with
        | (.inl st', evs) => crawlLoop cfg w allowed n st' (tr ++ evs)
        | (.inr (e, st'), evs) => some ⟨some e, st', tr ++ evs⟩ := by
  rw [crawlLoop]
  show (if vis.contains url = true then crawlLoop cfg w allowed n ⟨rest, vis, fs⟩ tr
    else match crawlIter cfg w allowed url rest vis fs with
      | (.inl st', evs) => crawlLoop cfg w allowed n st' (tr ++ evs)
      | (.inr (e, st'), evs) => some ⟨some e, st', tr ++ evs⟩) = _
  rw [if_neg (fun h => Bool.false_ne_true (hvis ▸ h))]

/-- Shape of a non-aborting iteration: the visited set is unchanged (failed
fetch) or gains exactly the dequeued URL; the frontier is the remaining
queue, possibly extended with the page's links. -/
theorem crawlIter_inl (cfg : Config) (w : World) (allowed : List String)
    (url : String) (rest vis fs : List String) (st' : CrawlState) (evs : List Ev)
    (h : crawlIter cfg w allowed url rest vis fs = (.inl st', evs)) :
    (st'.visited = vis ∧ st'.queue = rest) ∨
    (st'.visited = url :: vis ∧
      (st'.queue = rest ∨ st'.queue = queueUpdate rest (iterLinks w allowed url))) := by
  unfold crawlIter at h
  rcases hpr : (if cfg.clean_cache = true then purge_page w.pnet url
      else Except.ok none) with e | a
  · rw [hpr] at h
    simp at h
  · rw [hpr] at h
    simp only [] at h
    rcases hf : fetch_page (netFun w) url with _ | ⟨ct, body⟩
    · rw [hf] at h
      simp at h
      left
      rw [← h.1]
      exact ⟨rfl, rfl⟩
    · rw [hf] at h
      simp only [] at h
      rcases hct : contentTypeMatches ct with e | b
      · rw [hct] at h
        simp at h
      · rw [hct] at h
        cases b
        · simp at h
          right
          rw [← h.1]
          exact ⟨rfl, Or.inl rfl⟩
        · simp at h
          right
          rw [← h.1]
          refine ⟨rfl, Or.inr ?_⟩
          have hl : iterLinks w allowed url = pageLinks w allowed url body := by
            simp [iterLinks, hf, hct]
          rw [hl]

/-- Shape of an aborting iteration: the frontier is the remaining queue and
the visited set is unchanged or gains exactly the dequeued URL. -/
theorem crawlIter_inr (cfg : Config) (w : World) (allowed : List String)
    (url : String) (rest vis fs : List String) (e : PyExc) (st' : CrawlState)
    (evs : List Ev)
    (h : crawlIter cfg w allowed url rest vis fs = (.inr (e, st'), evs)) :
    (st'.visited = vis ∨ st'.visited = url :: vis) ∧ st'.queue = rest := by
  unfold crawlIter at h
  rcases hpr : (if cfg.clean_cache = true then purge_page w.pnet url
      else Except.ok none) with e1 | a
  · rw [hpr] at h
    simp at h
    rw [← h.1.2]
    exact ⟨Or.inl rfl, rfl⟩
  · rw [hpr] at h
    simp only [] at h
    rcases hf : fetch_page (netFun w) url with _ | ⟨ct, body⟩
    · rw [hf] at h
      simp at h
    · rw [hf] at h
      simp only [] at h
      rcases hct : contentTypeMatches ct with e1 | b
      · rw [hct] at h
        simp at h
        rw [← h.1.2]
        exact ⟨Or.inr rfl, rfl⟩
      · rw [hct] at h
        cases b <;> simp at h

/-! ### Claims C5, C6, C9 -/

/-- Claim C5 (confirmed).  Visited-once invariant: starting from a
duplicate-free visited set, any finished run (normal or aborted) ends with
a duplicate-free visited set (each URL added at most once) that contains
everything the initial visited set contained (never removed); and a
dequeued URL already in the visited set is skipped before any fetch: the
step consumes it without running an iteration, changing no state and
emitting no events. -/
theorem c5_visited_once :
    (∀ (cfg : Config) (w : World) (allowed : List String) (n : Nat)
        (st : CrawlState) (tr : List Ev) (res : RunResult),
        st.visited.Nodup →
        crawlLoop cfg w allowed n st tr = some res →
        res.state.visited.Nodup ∧ ∀ u, u ∈ st.visited → u ∈ res.state.visited)
  ∧ (∀ (cfg : Config) (w : World) (allowed : List String) (n : Nat)
        (st : CrawlState) (tr : List Ev) (url : String) (rest : List String),
        st.queue = url :: rest →
        st.visited.contains url = true →
        crawlLoop cfg w allowed (n + 1) st tr
          = crawlLoop cfg w allowed n ⟨rest, st.visited, st.fs⟩ tr) := by
  constructor
  · intro cfg w allowed n
    induction n with
    | zero => intro st tr res _ h; cases h
    | succ n ih =>
      intro st tr res hnd h
      obtain ⟨q, vis, fs⟩ := st
      rcases q with _ | ⟨url, rest⟩
      · rw [crawlLoop_nil] at h
        cases h
        exact ⟨hnd, fun u hu => hu⟩
      · by_cases hvis : vis.contains url = true
        · rw [crawlLoop_cons_visited _ _ _ _ _ _ _ _ _ hvis] at h
          exact ih ⟨rest, vis, fs⟩ tr res hnd h
        · rw [Bool.not_eq_true] at hvis
          rw [crawlLoop_cons_not_visited _ _ _ _ _ _ _ _ _ hvis] at h
          have hurl : url ∉ vis := not_mem_of_contains_false hvis
          split at h
          · next st' evs hiter =>
            rcases crawlIter_inl _ _ _ _ _ _ _ _ _ hiter with ⟨h1, _⟩ | ⟨h1, _⟩
            · have := ih st' (tr ++ evs) res (by rw [h1]; exact hnd) h
              exact ⟨this.1, fun u hu => this.2 u (by rw [h1]; exact hu)⟩
            · have := ih st' (tr ++ evs) res
                (by rw [h1]; exact List.Nodup.cons hurl hnd) h
              exact ⟨this.1, fun u hu => this.2 u (by rw [h1]; exact List.mem_cons_of_mem _ hu)⟩
          · next e st' evs hiter =>
            cases h
            rcases (crawlIter_inr _ _ _ _ _ _ _ _ _ _ hiter).1 with h1 | h1
            · rw [h1]
              exact ⟨hnd, fun u hu => hu⟩
            · rw [h1]
              exact ⟨List.Nodup.cons hurl hnd, fun u hu => List.mem_cons_of_mem _ hu⟩
  · intro cfg w allowed n st tr url rest hq hvis
    obtain ⟨q, vis, fs⟩ := st
    simp only at hq
    subst hq
    exact crawlLoop_cons_visited _ _ _ _ _ _ _ _ _ hvis

/-- Witness for C5: a concrete one-URL run for the run-level part, and a
concrete skip of an already-visited URL for the step-level part. -/
theorem c5_visited_once_witness :
    (([] : List String).Nodup
      ∧ crawlLoop ⟨false, false⟩ ⟨[], fun _ => .httpError 404, fun _ => [], fun _ => [],
          fun _ r => r⟩ [] 2 ⟨["http://a/"], [], []⟩ []
          = some ⟨none, ⟨[], [], []⟩, [Ev.fetch "http://a/"]⟩
      ∧ ([] : List String).Nodup)
  ∧ crawlLoop ⟨false, false⟩ ⟨[], fun _ => .httpError 404, fun _ => [], fun _ => [],
        fun _ r => r⟩ [] 1 ⟨["http://a/"], ["http://a/"], []⟩ []
      = crawlLoop ⟨false, false⟩ ⟨[], fun _ => .httpError 404, fun _ => [], fun _ => [],
        fun _ r => r⟩ [] 0 ⟨[], ["http://a/"], []⟩ [] := by
  have h1 : ([] : List String).Nodup := List.nodup_nil
  have h2 : crawlLoop ⟨false, false⟩ ⟨[], fun _ => .httpError 404, fun _ => [], fun _ => [],
      fun _ r => r⟩ [] 2 ⟨["http://a/"], [], []⟩ []
      = some ⟨none, ⟨[], [], []⟩, [Ev.fetch "http://a/"]⟩ := by decide
  refine ⟨⟨h1, h2, (c5_visited_once.1 _ _ _ _ _ _ _ h1 h2).1⟩, ?_⟩
  exact c5_visited_once.2 ⟨false, false⟩ _ [] 0 ⟨["http://a/"], ["http://a/"], []⟩ []
    "http://a/" [] rfl (by decide)

/-- No purge event is ever emitted by the optional renew prefix of an
iteration. -/
theorem rn_no_purge (cfg : Config) (w : World) (fs : List String) (url u : String) :
    Ev.purge u ∉ (if cfg.purge then renew_page_cache (netFun w) fs url
      else (false, fs, [])).2.2 := by
  split
  · rcases renew_evs (netFun w) fs url with h | h <;> rw [h] <;> simp
  · simp

/-- The events of one iteration: the renew prefix, the fetch of the URL,
the purge of the URL exactly when clean-cache is configured, and a final
visit event exactly on success. -/
theorem crawlIter_evs (cfg : Config) (w : World) (allowed : List String)
    (url : String) (rest vis fs : List String) :
    ∃ tail, (crawlIter cfg w allowed url rest vis fs).2
      = (if cfg.purge then renew_page_cache (netFun w) fs url else (false, fs, [])).2.2
        ++ [Ev.fetch url]
        ++ (if cfg.clean_cache = true then [Ev.purge url] else []) ++ tail
      ∧ (tail = [] ∨ tail = [Ev.visit url]) := by
  unfold crawlIter
  rcases (if cfg.clean_cache = true then purge_page w.pnet url
      else Except.ok none) with e | a
  · exact ⟨[], by simp, Or.inl rfl⟩
  · simp only []
    rcases fetch_page (netFun w) url with _ | ⟨ct, body⟩
    · exact ⟨[], by simp, Or.inl rfl⟩
    · simp only []
      rcases contentTypeMatches ct with e | b
      · exact ⟨[Ev.visit url], by simp, Or.inr rfl⟩
      · cases b
        · exact ⟨[Ev.visit url], by simp, Or.inr rfl⟩
        · exact ⟨[Ev.visit url], by simp, Or.inr rfl⟩

/-- Claim C6, amended (corrected).  When clean-cache-after-fetch is
configured, a post-fetch Purge of the dequeued URL is issued immediately
after every fetch attempt, whether or not the fetch succeeded; when it is
not configured, no Purge is ever issued. -/
theorem c6_purge_after_every_fetch :
    (∀ (cfg : Config) (w : World) (allowed : List String) (url : String)
        (rest vis fs : List String),
        cfg.clean_cache = true →
        ∃ pre tail, (crawlIter cfg w allowed url rest vis fs).2
            = pre ++ [Ev.fetch url, Ev.purge url] ++ tail
          ∧ ∀ u, Ev.purge u ∉ pre)
  ∧ (∀ (cfg : Config) (w : World) (allowed : List String) (url : String)
        (rest vis fs : List String),
        cfg.clean_cache = false →
        ∀ u, Ev.purge u ∉ (crawlIter cfg w allowed url rest vis fs).2) := by
  constructor
  · intro cfg w allowed url rest vis fs hclean
    obtain ⟨tail, hevs, _⟩ := crawlIter_evs cfg w allowed url rest vis fs
    rw [hclean] at hevs
    refine ⟨(if cfg.purge then renew_page_cache (netFun w) fs url
      else (false, fs, [])).2.2, tail, ?_, fun u => rn_no_purge cfg w fs url u⟩
    rw [hevs]
    simp
  · intro cfg w allowed url rest vis fs hclean u
    obtain ⟨tail, hevs, htail⟩ := crawlIter_evs cfg w allowed url rest vis fs
    rw [hclean] at hevs
    rw [hevs]
    simp
    refine ⟨rn_no_purge cfg w fs url u, ?_⟩
    rcases htail with h | h <;> rw [h] <;> simp

/-- Witness for C6's amended theorem: concrete iterations with the flag on
and off. -/
theorem c6_purge_after_every_fetch_witness :
    (∃ pre tail, (crawlIter ⟨false, true⟩ ⟨[], fun _ => .httpError 404, fun _ => [],
          fun _ => [], fun _ r => r⟩ [] "http://a/" [] [] []).2
        = pre ++ [Ev.fetch "http://a/", Ev.purge "http://a/"] ++ tail
      ∧ ∀ u, Ev.purge u ∉ pre)
  ∧ (∀ u, Ev.purge u ∉ (crawlIter ⟨false, false⟩ ⟨[], fun _ => .httpError 404,
        fun _ => [], fun _ => [], fun _ r => r⟩ [] "http://a/" [] [] []).2) :=
  ⟨c6_purge_after_every_fetch.1 _ _ _ _ _ _ _ rfl,
    c6_purge_after_every_fetch.2 _ _ _ _ _ _ _ rfl⟩

/-- Counterexample for C6 as stated: with clean-cache configured, a URL
whose fetch fails (the transport has no entry, so the fetch is a transport
error and the URL is never visited) still gets a post-fetch Purge issued,
as the trace shows. -/
theorem c6_purge_issued_after_failed_fetch :
    crawlLoop ⟨false, true⟩ ⟨[], fun _ => PurgeOutcome.httpError 404, fun _ => [],
        fun _ => [], fun _ r => r⟩ [] 2 ⟨["http://a/"], [], []⟩ []
      = some ⟨none, ⟨[], [], []⟩, [Ev.fetch "http://a/", Ev.purge "http://a/"]⟩
  ∧ netFun ⟨[], fun _ => PurgeOutcome.httpError 404, fun _ => [], fun _ => [],
        fun _ r => r⟩ (downgradeScheme "http://a/") = .transportError :=
  ⟨by decide, rfl⟩

/-- Claim C9 (confirmed).  If a fetch succeeds but the response carries no
Content-Type header, the content-type dispatch evaluates startswith on
None and the AttributeError escapes the crawl loop (the URL having just
been marked visited), instead of being absorbed as a per-URL failure. -/
theorem c9_missing_content_type_raises
    (cfg : Config) (w : World) (allowed : List String) (n : Nat) (url : String)
    (rest vis fs : List String) (tr : List Ev) (body : String)
    (hclean : cfg.clean_cache = false)
    (hvis : vis.contains url = false)
    (hnet : netFun w (downgradeScheme url) = FetchOutcome.ok none body) :
    ∃ st' evs, crawlLoop cfg w allowed (n + 1) ⟨url :: rest, vis, fs⟩ tr
        = some ⟨some PyExc.attributeError, st', tr ++ evs⟩
      ∧ st'.visited = url :: vis ∧ st'.queue = rest := by
  have hf : fetch_page (netFun w) url = some (none, body) := by
    unfold fetch_page
    rw [hnet]
  have hiter : ∃ fsx evs, crawlIter cfg w allowed url rest vis fs
      = (.inr (.attributeError, ⟨rest, url :: vis, fsx⟩), evs) := by
    unfold crawlIter
    rw [hclean, hf]
    simp [contentTypeMatches]
  obtain ⟨fsx, evs, hiter⟩ := hiter
  rw [crawlLoop_cons_not_visited _ _ _ _ _ _ _ _ _ hvis, hiter]
  exact ⟨_, _, rfl, rfl, rfl⟩

/-- Witness for C9: a concrete response with a body but no Content-Type
header. -/
theorem c9_missing_content_type_raises_witness :
    ((⟨false, false⟩ : Config).clean_cache = false
      ∧ (([] : List String).contains "http://a/" = false)
      ∧ netFun ⟨[("http://a/", .ok none "B")], fun _ => .httpError 404, fun _ => [],
          fun _ => [], fun _ r => r⟩ (downgradeScheme "http://a/") = .ok none "B")
  ∧ ∃ st' evs, crawlLoop ⟨false, false⟩ ⟨[("http://a/", .ok none "B")],
        fun _ => .httpError 404, fun _ => [], fun _ => [], fun _ r => r⟩ [] 1
        ⟨["http://a/"], [], []⟩ []
        = some ⟨some PyExc.attributeError, st', [] ++ evs⟩
      ∧ st'.visited = ["http://a/"] ∧ st'.queue = [] := by
  refine ⟨⟨rfl, by decide, by decide⟩, ?_⟩
  exact c9_missing_content_type_raises ⟨false, false⟩ _ [] 0 "http://a/" [] [] [] []
    "B" rfl (by decide) (by decide)

/-! ### Termination of the crawl loop (claim C8)

With the transport given as a finite behavior table, only finitely many
URLs can ever be fetched successfully (the downgrade map has at most two
preimages per table key), so only finitely many URLs can ever be enqueued.
A lexicographic measure (number of universe URLs not yet visited, then
frontier length) decreases at every step. -/

/-- A fetch outcome that cannot make the content-type dispatch raise:
every success carries a Content-Type header. -/
def fetchOutcomeHasCT : FetchOutcome → Bool
  | .ok none _ => false
  | _ => true

/-- A purge outcome that makes purge_page raise. -/
def purgeOutcomeRaises : PurgeOutcome → Bool
  | .transportError => true
  | .timeout => true
  | _ => false

/-- The https spelling of a table key: the only other URL whose downgrade
can hit that key. -/
def httpsVariant (k : String) : String :=
  String.mk (['h', 't', 't', 'p', 's'] ++ k.data.drop 4)

/-- All URLs whose fetch can possibly succeed against the table. -/
def fetchableURLs (w : World) : List String :=
  w.net.flatMap (fun p => [p.1, httpsVariant p.1])

/-- A finite superset of every URL that can ever sit in the frontier:
the seed plus every link any successful page can contribute. -/
def crawlUniverse (w : World) (allowed : List String) (start : String) :
    List String :=
  start :: (fetchableURLs w).flatMap (fun u => iterLinks w allowed u)

/-- URLs of the universe not yet visited. -/
def unvisitedCount (U vis : List String) : Nat :=
  (U.dedup.filter (fun u => !vis.contains u)).length

/-- The termination measure of a loop state. -/
def stMeasure (U : List String) (st : CrawlState) : Nat :=
  unvisitedCount U st.visited * (U.dedup.length + 1) + st.queue.length

/-- A successful association-list lookup exhibits its pair. -/
theorem lookup_mem {l : List (String × FetchOutcome)} {a : String}
    {b : FetchOutcome} (h : l.lookup a = some b) : (a, b) ∈ l := by
  induction l with
  | nil => cases h
  | cons p t ih =>
    obtain ⟨k, v⟩ := p
    rcases hak : a == k with _ | _
    · rw [List.lookup, hak] at h
      exact List.mem_cons_of_mem _ (ih h)
    · rw [List.lookup, hak] at h
      simp only [] at h
      cases h
      have hk : a = k := eq_of_beq hak
      subst hk
      exact List.mem_cons_self _ _

/-- Every URL is either its own downgrade or the https variant of it. -/
theorem downgrade_cases (u : String) :
    u = downgradeScheme u ∨ u = httpsVariant (downgradeScheme u) := by
  unfold downgradeScheme
  by_cases h : u.data.take 5 = ['h', 't', 't', 'p', 's']
  · right
    rw [if_pos h]
    unfold httpsVariant
    have hd : (['h', 't', 't', 'p'] ++ u.data.drop 5).drop 4 = u.data.drop 5 := by
      rw [show 4 = (['h', 't', 't', 'p'] : List Char).length from rfl, List.drop_left]
    obtain ⟨l⟩ := u
    simp only at h hd ⊢
    rw [hd]
    rw [show (['h', 't', 't', 'p', 's'] : List Char) = ['h', 't', 't', 'p', 's'] ++ [] from by simp] at h
    have := congrArg (fun x => x ++ l.drop 5) h.symm
    simp only [List.nil_append] at this
    rw [← List.take_append_drop 5 l]
    exact congrArg String.mk (by rw [← this]; simp)
  · left
    rw [if_neg h]

/-- Every link an iteration can enqueue lies in the universe. -/
theorem iterLinks_subset_universe (w : World) (allowed : List String)
    (start u x : String) (hx : x ∈ iterLinks w allowed u) :
    x ∈ crawlUniverse w allowed start := by
  rcases hn : netFun w (downgradeScheme u) with ⟨ct, body⟩ | s | _ | _
  case httpError =>
    unfold iterLinks fetch_page at hx
    rw [hn] at hx
    simp at hx
  case transportError =>
    unfold iterLinks fetch_page at hx
    rw [hn] at hx
    simp at hx
  case timeout =>
    unfold iterLinks fetch_page at hx
    rw [hn] at hx
    simp at hx
  case ok =>
    have hlk : w.net.lookup (downgradeScheme u) = some (.ok ct body) := by
      unfold netFun at hn
      rcases hl : w.net.lookup (downgradeScheme u) with _ | o
      · rw [hl] at hn
        cases hn
      · rw [hl] at hn
        simp only [] at hn
        rw [hn]
    have hmem : (downgradeScheme u, FetchOutcome.ok ct body) ∈ w.net := lookup_mem hlk
    have hfet : u ∈ fetchableURLs w := by
      unfold fetchableURLs
      rcases downgrade_cases u with hcase | hcase
      · exact List.mem_flatMap.mpr ⟨_, hmem, by
          simp only [List.mem_cons]
          exact Or.inl hcase⟩
      · exact List.mem_flatMap.mpr ⟨_, hmem, by
          simp only [List.mem_cons]
          exact Or.inr (Or.inl hcase)⟩
    unfold crawlUniverse
    exact List.mem_cons_of_mem _ (List.mem_flatMap.mpr ⟨u, hfet, hx⟩)

/-- purge_page cannot raise when the purge transport never produces a
raising outcome at the requested URL. -/
theorem purge_page_ok (pnet : String → PurgeOutcome) (url : String)
    (hB : purgeOutcomeRaises (pnet (downgradeScheme url)) = false) :
    ∃ r, purge_page pnet url = .ok r := by
  unfold purge_page
  rcases hp : pnet (downgradeScheme url) with t | s | _ | _
  · exact ⟨some t, rfl⟩
  · simp only []
    split
    · exact ⟨none, rfl⟩
    · exact ⟨none, rfl⟩
  · rw [hp] at hB
    cases hB
  · rw [hp] at hB
    cases hB

/-- Under a well-formed world (successes carry a Content-Type, the purge
transport never raises) no iteration aborts. -/
theorem crawlIter_no_abort (cfg : Config) (w : World) (allowed : List String)
    (url : String) (rest vis fs : List String)
    (hA : ∀ p ∈ w.net, fetchOutcomeHasCT p.2 = true)
    (hB : ∀ v, purgeOutcomeRaises (w.pnet v) = false) :
    ∃ st' evs, crawlIter cfg w allowed url rest vis fs = (.inl st', evs) := by
  unfold crawlIter
  have hpr : ∃ a, (if cfg.clean_cache = true then purge_page w.pnet url
      else Except.ok none) = Except.ok a := by
    split
    · exact purge_page_ok w.pnet url (hB _)
    · exact ⟨none, rfl⟩
  obtain ⟨a, hpr⟩ := hpr
  rw [hpr]
  simp only []
  rcases hf : fetch_page (netFun w) url with _ | ⟨ct, body⟩
  · exact ⟨_, _, rfl⟩
  · simp only []
    have hcts : ∃ c, ct = some c := by
      rcases hn : netFun w (downgradeScheme url) with ⟨ct2, body2⟩ | s | _ | _
      case httpError =>
        unfold fetch_page at hf
        rw [hn] at hf
        simp at hf
      case transportError =>
        unfold fetch_page at hf
        rw [hn] at hf
        simp at hf
      case timeout =>
        unfold fetch_page at hf
        rw [hn] at hf
        simp at hf
      case ok =>
        unfold fetch_page at hf
        rw [hn] at hf
        simp only [Option.some.injEq, Prod.mk.injEq] at hf
        have hlk : w.net.lookup (downgradeScheme url) = some (.ok ct2 body2) := by
          unfold netFun at hn
          rcases hl : w.net.lookup (downgradeScheme url) with _ | o
          · rw [hl] at hn
            cases hn
          · rw [hl] at hn
            simp only [] at hn
            rw [hn]
        have hct2 := hA _ (lookup_mem hlk)
        rcases ct2 with _ | c
        · cases hct2
        · exact ⟨c, by rw [← hf.1]⟩
    obtain ⟨c, hc⟩ := hcts
    subst hc
    have hb : contentTypeMatches (some c) = .ok ((c == "text/html" || c == "text/css"
        || c == "application/javascript") || strStartsWith c "text/") := rfl
    rw [hb]
    rcases hbv : ((c == "text/html" || c == "text/css"
        || c == "application/javascript") || strStartsWith c "text/") with _ | _
    · exact ⟨_, _, rfl⟩
    · exact ⟨_, _, rfl⟩

/-- Monotonicity of filter length under pointwise implication. -/
theorem filter_length_mono {α : Type} (p q : α → Bool) (l : List α)
    (h : ∀ a, p a = true → q a = true) :
    (l.filter p).length ≤ (l.filter q).length := by
  induction l with
  | nil => simp
  | cons a t ih =>
    by_cases hp : p a = true
    · rw [List.filter_cons_of_pos hp, List.filter_cons_of_pos (h a hp)]
      simpa using ih
    · rw [List.filter_cons_of_neg (by simpa using hp)]
      by_cases hq : q a = true
      · rw [List.filter_cons_of_pos hq]
        exact Nat.le_succ_of_le ih
      · rw [List.filter_cons_of_neg (by simpa using hq)]
        exact ih

/-- Strict decrease of filter length at a member that stops satisfying the
predicate. -/
theorem filter_length_lt {α : Type} (p q : α → Bool) (l : List α) (a : α)
    (ha : a ∈ l) (hpa : p a = true) (hqa : q a = false)
    (h : ∀ x, q x = true → p x = true) :
    (l.filter q).length < (l.filter p).length := by
  induction l with
  | nil => cases ha
  | cons b t ih =>
    rcases List.mem_cons.mp ha with rfl | hat
    · rw [List.filter_cons_of_pos hpa, List.filter_cons_of_neg (by simp [hqa])]
      exact Nat.lt_succ_of_le (filter_length_mono q p t h)
    · by_cases hqb : q b = true
      · rw [List.filter_cons_of_pos hqb, List.filter_cons_of_pos (h b hqb)]
        exact Nat.succ_lt_succ (ih hat)
      · rw [List.filter_cons_of_neg (by simpa using hqb)]
        by_cases hpb : p b = true
        · rw [List.filter_cons_of_pos hpb]
          exact Nat.lt_succ_of_lt (ih hat)
        · rw [List.filter_cons_of_neg (by simpa using hpb)]
          exact ih hat

/-- Visiting cannot increase the number of unvisited universe URLs. -/
theorem unvisitedCount_le (U vis : List String) (url : String) :
    unvisitedCount U (url :: vis) ≤ unvisitedCount U vis := by
  apply filter_length_mono
  intro a ha
  rw [Bool.not_eq_true'] at ha ⊢
  rcases hc : vis.contains a with _ | _
  · rfl
  · rw [List.contains_cons, hc] at ha
    simp at ha

/-- Visiting a universe URL not yet visited strictly decreases the count. -/
theorem unvisitedCount_lt (U vis : List String) (url : String)
    (hu : url ∈ U) (hv : vis.contains url = false) :
    unvisitedCount U (url :: vis) < unvisitedCount U vis := by
  apply filter_length_lt _ _ _ url (List.mem_dedup.mpr hu)
  · rw [hv]
    rfl
  · simp [List.contains_cons]
  · intro a ha
    rw [Bool.not_eq_true'] at ha ⊢
    rcases hc : vis.contains a with _ | _
    · rfl
    · rw [List.contains_cons, hc] at ha
      simp at ha

/-- A duplicate-free list inside another list is no longer than the
other's deduplication. -/
theorem nodup_subset_length_le (q U : List String) (hnd : q.Nodup)
    (hsub : ∀ u ∈ q, u ∈ U) : q.length ≤ U.dedup.length := by
  have h1 : q.toFinset.card = q.length := List.toFinset_card_of_nodup hnd
  have h2 : q.toFinset ⊆ U.toFinset := by
    intro x hx
    rw [List.mem_toFinset] at hx ⊢
    exact hsub x hx
  have h3 := Finset.card_le_card h2
  rw [h1, List.card_toFinset] at h3
  exact h3

/-- queue.update keeps the frontier duplicate-free. -/
theorem queueUpdate_nodup (links : List String) :
    ∀ q : List String, q.Nodup → (queueUpdate q links).Nodup := by
  induction links with
  | nil => intro q h; exact h
  | cons l t ih =>
    intro q h
    unfold queueUpdate
    rw [List.foldl_cons]
    show (queueUpdate (if q.contains l then q else q ++ [l]) t).Nodup
    apply ih
    split
    · exact h
    · next hc =>
      rw [Bool.not_eq_true] at hc
      rw [List.nodup_append_comm]
      exact List.Nodup.cons (not_mem_of_contains_false hc) h

/-- Everything in an updated frontier came from the frontier or the new
links. -/
theorem queueUpdate_mem (links : List String) :
    ∀ (q : List String) (x : String), x ∈ queueUpdate q links → x ∈ q ∨ x ∈ links := by
  induction links with
  | nil => intro q x hx; exact Or.inl hx
  | cons l t ih =>
    intro q x hx
    unfold queueUpdate at hx
    rw [List.foldl_cons] at hx
    rcases ih (if q.contains l then q else q ++ [l]) x hx with h | h
    · split at h
      · exact Or.inl h
      · rcases List.mem_append.mp h with h | h
        · exact Or.inl h
        · simp at h
          exact Or.inr (by simp [h])
    · exact Or.inr (List.mem_cons_of_mem _ h)

/-- Sufficient fuel makes the loop finish normally with an empty frontier,
for any duplicate-free in-universe starting state of a well-formed world. -/
theorem crawlLoop_completes (cfg : Config) (w : World) (allowed : List String)
    (start : String)
    (hA : ∀ p ∈ w.net, fetchOutcomeHasCT p.2 = true)
    (hB : ∀ v, purgeOutcomeRaises (w.pnet v) = false) :
    ∀ (k : Nat) (st : CrawlState) (tr : List Ev),
      st.queue.Nodup →
      (∀ u ∈ st.queue, u ∈ crawlUniverse w allowed start) →
      stMeasure (crawlUniverse w allowed start) st < k →
      ∃ fin ftr, crawlLoop cfg w allowed k st tr = some ⟨none, fin, ftr⟩ ∧
        fin.queue = [] := by
  intro k
  induction k with
  | zero =>
    intro st tr _ _ hm
    exact absurd hm (Nat.not_lt_zero _)
  | succ k ih =>
    intro st tr hnd hsub hm
    obtain ⟨q, vis, fs⟩ := st
    rcases q with _ | ⟨url, rest⟩
    · exact ⟨⟨[], vis, fs⟩, tr, crawlLoop_nil cfg w allowed k vis fs tr, rfl⟩
    · have hrest_nd : rest.Nodup := List.Nodup.of_cons hnd
      have hrest_sub : ∀ u ∈ rest, u ∈ crawlUniverse w allowed start :=
        fun u hu => hsub u (List.mem_cons_of_mem _ hu)
      have hm' : unvisitedCount (crawlUniverse w allowed start) vis *
          ((crawlUniverse w allowed start).dedup.length + 1) + (rest.length + 1)
          < k + 1 := by
        simpa [stMeasure] using hm
      by_cases hvis : vis.contains url = true
      · rw [crawlLoop_cons_visited cfg w allowed k url rest vis fs tr hvis]
        apply ih ⟨rest, vis, fs⟩ tr hrest_nd hrest_sub
        simp only [stMeasure]
        omega
      · rw [Bool.not_eq_true] at hvis
        rw [crawlLoop_cons_not_visited cfg w allowed k url rest vis fs tr hvis]
        obtain ⟨st', evs, hiter⟩ :=
          crawlIter_no_abort cfg w allowed url rest vis fs hA hB
        rw [hiter]
        rcases crawlIter_inl cfg w allowed url rest vis fs st' evs hiter with
          ⟨h1, h2⟩ | ⟨h1, h2⟩
        · apply ih st' (tr ++ evs) (by rw [h2]; exact hrest_nd)
            (by rw [h2]; exact hrest_sub)
          simp only [stMeasure, h1, h2]
          omega
        · rcases h2 with h2 | h2
          · apply ih st' (tr ++ evs) (by rw [h2]; exact hrest_nd)
              (by rw [h2]; exact hrest_sub)
            simp only [stMeasure, h1, h2]
            have hle := unvisitedCount_le (crawlUniverse w allowed start) vis url
            have hmul := Nat.mul_le_mul_right
              ((crawlUniverse w allowed start).dedup.length + 1) hle
            omega
          · have hqnd : st'.queue.Nodup := by
              rw [h2]
              exact queueUpdate_nodup _ rest hrest_nd
            have hqsub : ∀ u ∈ st'.queue, u ∈ crawlUniverse w allowed start := by
              rw [h2]
              intro u hu
              rcases queueUpdate_mem _ rest u hu with h | h
              · exact hrest_sub u h
              · exact iterLinks_subset_universe w allowed start url u h
            apply ih st' (tr ++ evs) hqnd hqsub
            have hlen : st'.queue.length ≤ (crawlUniverse w allowed start).dedup.length :=
              nodup_subset_length_le _ _ hqnd hqsub
            have hAlt : unvisitedCount (crawlUniverse w allowed start) (url :: vis) + 1
                ≤ unvisitedCount (crawlUniverse w allowed start) vis :=
              unvisitedCount_lt _ vis url (hsub url (List.mem_cons_self _ _)) hvis
            have hmul := Nat.mul_le_mul_right
              ((crawlUniverse w allowed start).dedup.length + 1) hAlt
            rw [Nat.succ_mul] at hmul
            simp only [stMeasure, h1]
            omega

/-- Claim C8 (confirmed).  Termination: for every finite link graph (a
finite transport table in which every successful fetch carries a
Content-Type, and a purge transport that never raises), the crawl loop
from any seed and any filesystem reaches, within some finite fuel, a
normal finish whose frontier is empty — in particular even when fetches
fail and failed URLs are re-discovered and re-enqueued, since a failed URL
is popped again and consumes fuel only finitely often. -/
theorem c8_crawl_terminates (cfg : Config) (w : World) (allowed : List String)
    (start : String) (fs0 : List String)
    (hA : ∀ p ∈ w.net, fetchOutcomeHasCT p.2 = true)
    (hB : ∀ v, purgeOutcomeRaises (w.pnet v) = false) :
    ∃ n fin ftr, crawlLoop cfg w allowed n ⟨[start], [], fs0⟩ []
        = some ⟨none, fin, ftr⟩ ∧ fin.queue = [] := by
  obtain ⟨fin, ftr, hrun, hq⟩ := crawlLoop_completes cfg w allowed start hA hB
    (stMeasure (crawlUniverse w allowed start) ⟨[start], [], fs0⟩ + 1)
    ⟨[start], [], fs0⟩ []
    (List.nodup_singleton start)
    (by
      intro u hu
      rw [List.mem_singleton] at hu
      subst hu
      exact List.mem_cons_self _ _)
    (Nat.lt_succ_self _)
  exact ⟨_, fin, ftr, hrun, hq⟩

/-- Witness for C8: a concrete one-page world (an HTML page with no links)
satisfying both well-formedness hypotheses. -/
theorem c8_crawl_terminates_witness :
    ((∀ p ∈ ([("http://a/", FetchOutcome.ok (some "text/html") "B")] :
        List (String × FetchOutcome)), fetchOutcomeHasCT p.2 = true)
      ∧ (∀ v : String, purgeOutcomeRaises
          ((fun _ => PurgeOutcome.httpError 404) v) = false))
  ∧ ∃ n fin ftr, crawlLoop ⟨false, false⟩
      ⟨[("http://a/", FetchOutcome.ok (some "text/html") "B")],
        fun _ => PurgeOutcome.httpError 404, fun _ => [], fun _ => [], fun _ r => r⟩
      [] n ⟨["http://a/"], [], []⟩ [] = some ⟨none, fin, ftr⟩ ∧ fin.queue = [] := by
  have hA : ∀ p ∈ ([("http://a/", FetchOutcome.ok (some "text/html") "B")] :
      List (String × FetchOutcome)), fetchOutcomeHasCT p.2 = true := by decide
  have hB : ∀ v : String, purgeOutcomeRaises
      ((fun _ => PurgeOutcome.httpError 404) v) = false := fun v => rfl
  exact ⟨⟨hA, hB⟩, c8_crawl_terminates ⟨false, false⟩ _ [] "http://a/" [] hA hB⟩

end Crawl
